import Mathlib

/-!
Verification of the core interaction and encounter logic of the `spooky`
first-person scene (source: `src/app/game/page.tsx`).

The per-frame callbacks of the source are shallowly embedded as pure step
functions over explicit state records.  Times are in milliseconds and all
scalar quantities are rationals; a frame callback is modelled as a function
from the timestamp of the frame (and per-frame inputs) to the next state.
Delayed `setTimeout` actions are modelled as firing at exactly their
scheduled time, observed at the next processed frame.
-/

set_option autoImplicit false

namespace Spooky

/-- A 3D point with rational coordinates (`THREE.Vector3` of the source). -/
structure Vec3 where
  x : ℚ
  y : ℚ
  z : ℚ
  deriving DecidableEq, Repr

/-- The camera pose handled by `PlayerBoundary`: position plus the horizontal
facing angle, which the clamp never touches. -/
structure CameraPose where
  x : ℚ
  y : ℚ
  z : ℚ
  yaw : ℚ
  deriving DecidableEq, Repr

/-- Lower corner bound per axis: `Math.min(corner1.x, corner2.x)` etc. -/
def boundMinX (c1 c2 : Vec3) : ℚ := min c1.x c2.x

/-- Upper corner bound on x: `Math.max(corner1.x, corner2.x)`. -/
def boundMaxX (c1 c2 : Vec3) : ℚ := max c1.x c2.x

/-- Lower corner bound on z: `Math.min(corner1.z, corner2.z)`. -/
def boundMinZ (c1 c2 : Vec3) : ℚ := min c1.z c2.z

/-- Upper corner bound on z: `Math.max(corner1.z, corner2.z)`. -/
def boundMaxZ (c1 c2 : Vec3) : ℚ := max c1.z c2.z

/-- The per-axis clamp of `PlayerBoundary.useFrame`:
`if (v < lo) v = lo; else if (v > hi) v = hi;`. -/
def clampAxis (lo hi v : ℚ) : ℚ :=
  if v < lo then lo else if v > hi then hi else v

/-- One frame of the `PlayerBoundary` component: clamp the camera x and z
to the rectangle spanned by the two corner points; y and yaw are untouched. -/
def playerBoundaryFrame (c1 c2 : Vec3) (p : CameraPose) : CameraPose :=
  { p with
    x := clampAxis (boundMinX c1 c2) (boundMaxX c1 c2) p.x
    z := clampAxis (boundMinZ c1 c2) (boundMaxZ c1 c2) p.z }

/-- The first boundary corner used in the source: `(9.21, 1.6, 8.73)`. -/
def boundaryCorner1 : Vec3 := ⟨921/100, 8/5, 873/100⟩

/-- The second boundary corner used in the source: `(-9.07, 1.6, -8.95)`. -/
def boundaryCorner2 : Vec3 := ⟨-907/100, 8/5, -895/100⟩

/-- Whether a pose is already inside the clamp rectangle of the two corners. -/
def insideBoundary (c1 c2 : Vec3) (p : CameraPose) : Prop :=
  boundMinX c1 c2 ≤ p.x ∧ p.x ≤ boundMaxX c1 c2 ∧
  boundMinZ c1 c2 ≤ p.z ∧ p.z ≤ boundMaxZ c1 c2

instance (c1 c2 : Vec3) (p : CameraPose) : Decidable (insideBoundary c1 c2 p) := by
  unfold insideBoundary; infer_instance

/-- The flashlight-related state of `FirstPersonController` plus the
`flashlightOn` session flag it toggles through `toggleFlashlight`. -/
structure FlashState where
  lastFlashlightPress : Bool
  flashlightOn : Bool
  deriving DecidableEq, Repr

/-- The per-frame inputs seen by `FirstPersonController.useFrame`: the raw
flashlight key state from `getKeys()` and the `movementDisabled` prop. -/
structure FrameKeys where
  flashlight : Bool
  movementDisabled : Bool
  deriving DecidableEq, Repr

/-- One `useFrame` callback of `FirstPersonController`, restricted to the
flashlight logic.  The source returns early when `movementDisabled` is true,
before the flashlight edge-detector runs; otherwise a press with
`lastFlashlightPress` false fires `onFlashlightToggle` (which flips
`flashlightOn`) and latches, and a released key clears the latch. -/
def fpcFlashFrame (inp : FrameKeys) (s : FlashState) : FlashState :=
  if inp.movementDisabled then s
  else if inp.flashlight && !s.lastFlashlightPress then
    { lastFlashlightPress := true, flashlightOn := !s.flashlightOn }
  else if !inp.flashlight then
    { s with lastFlashlightPress := false }
  else s

/-- Whether the frame fires the toggle: the source calls
`onFlashlightToggle()` exactly when movement is enabled, the key is down and
the previous-press latch is clear. -/
def fpcFired (inp : FrameKeys) (s : FlashState) : Bool :=
  !inp.movementDisabled && inp.flashlight && !s.lastFlashlightPress

/-- Run a list of frames through the controller. -/
def fpcFlashRun (frames : List FrameKeys) (s : FlashState) : FlashState :=
  frames.foldl (fun st f => fpcFlashFrame f st) s

/-- How many times `onFlashlightToggle` fires across a list of frames. -/
def fpcToggleCount : List FrameKeys → FlashState → ℕ
  | [], _ => 0
  | f :: fs, s => (if fpcFired f s then 1 else 0) + fpcToggleCount fs (fpcFlashFrame f s)

/-- `n` consecutive frames with the flashlight key held and movement enabled. -/
def heldFrames (n : ℕ) : List FrameKeys := List.replicate n ⟨true, false⟩

/-- `n` consecutive frames with the flashlight key released and movement enabled. -/
def releasedFrames (n : ℕ) : List FrameKeys := List.replicate n ⟨false, false⟩

/-- State touched by the handlers of the peacock gaze trigger: the
`cameraFlipped` and `peacockSwapped` session flags, the pending
`setTimeout(() => setCameraFlipped(false), 3000)` reset, and counters for
how many times each side effect has actually executed.  `yawFlips` counts
the `setAzimuthalAngle(current + Math.PI)` applications. -/
structure GazeState where
  cameraFlipped : Bool
  peacockSwapped : Bool
  flipResetAt : Option ℚ
  flipCount : ℕ
  swapCount : ℕ
  yawFlips : ℕ
  deriving DecidableEq, Repr

/-- Session-start gaze state: both flags false, nothing scheduled. -/
def gazeInit : GazeState := ⟨false, false, none, 0, 0, 0⟩

/-- Deliver the pending 3-second `cameraFlipped` reset if its scheduled time
has arrived by the timestamp of the current frame. -/
def applyDueReset (t : ℚ) (s : GazeState) : GazeState :=
  match s.flipResetAt with
  | some r => if r ≤ t then { s with cameraFlipped := false, flipResetAt := none } else s
  | none => s

/-- `handleCameraFlip` of the source: guarded by `!cameraFlipped`; when it
fires it sets the flag, applies a +180-degree azimuthal flip, and schedules
the flag to be cleared 3000 ms later. -/
def handleCameraFlip (t : ℚ) (s : GazeState) : GazeState :=
  if s.cameraFlipped then s
  else
    { s with
      cameraFlipped := true
      flipCount := s.flipCount + 1
      yawFlips := s.yawFlips + 1
      flipResetAt := some (t + 3000) }

/-- `handlePeacockSwap` of the source: guarded by `!peacockSwapped`; once set
the flag is never cleared anywhere in the program. -/
def handlePeacockSwap (s : GazeState) : GazeState :=
  if s.peacockSwapped then s
  else { s with peacockSwapped := true, swapCount := s.swapCount + 1 }

/-- One frame of `PeacockHoverDetector` as seen by the handlers.
`qualifies` is the per-frame geometric gaze test of the source
(`distance(camera, peacock) <= 2` and the dot of the camera forward unit
vector with the normalized camera-to-peacock vector `> 0.7`); whenever it
holds the detector calls `onCameraFlip()` then `onPeacockSwap()`, with no
latch of its own.  Pending timeout resets due by time `t` run first. -/
structure GazeFrame where
  t : ℚ
  qualifies : Bool
  deriving DecidableEq, Repr

/-- Process one detector frame: deliver any due reset, then, if the gaze
condition holds this frame, run both handlers (flip before swap, as in the
source). -/
def peacockHoverFrame (f : GazeFrame) (s : GazeState) : GazeState :=
  let s1 := applyDueReset f.t s
  if f.qualifies then handlePeacockSwap (handleCameraFlip f.t s1) else s1

/-- Run a list of detector frames. -/
def peacockHoverRun (frames : List GazeFrame) (s : GazeState) : GazeState :=
  frames.foldl (fun st f => peacockHoverFrame f st) s

/-- The six phases of the ghost encounter choreographed inside `handleStart`
via nested timeouts and `requestAnimationFrame` loops. -/
inductive EncounterPhase
  | idle
  | approaching
  | facing
  | glowing
  | rushing
  | resolved
  deriving DecidableEq, Repr

/-- Numeric order of the phases along the scripted sequence. -/
def phaseIdx : EncounterPhase → ℕ
  | .idle => 0
  | .approaching => 1
  | .facing => 2
  | .glowing => 3
  | .rushing => 4
  | .resolved => 5

/-- The fixed ghost start position `[-5.37, 0, 1.24]`. -/
def ghostStartPos : Vec3 := ⟨-537/100, 0, 124/100⟩

/-- The world origin `[0, 0, 0]` the approach ends at. -/
def originPos : Vec3 := ⟨0, 0, 0⟩

/-- Delay before the ghost timer fires: `setTimeout(..., 12000)`. -/
def ghostDelayMs : ℚ := 12000

/-- Duration of the approach animation: `const duration = 12000`. -/
def approachDurationMs : ℚ := 12000

/-- Duration of the turn-to-face animation: `rotationDuration = 2000`. -/
def rotationDurationMs : ℚ := 2000

/-- The glow hold before the rush: `setTimeout(..., 1000)`. -/
def glowHoldMs : ℚ := 1000

/-- Duration of the rush animation: `rushDuration = 2000`. -/
def rushDurationMs : ℚ := 2000

/-- Scalar linear interpolation `a + (b - a) * p` as written in the source. -/
def lerpQ (a b p : ℚ) : ℚ := a + (b - a) * p

/-- Componentwise linear interpolation of positions, as in `animateGhost`
and `rushToPlayer`. -/
def lerpVec (a b : Vec3) (p : ℚ) : Vec3 :=
  ⟨lerpQ a.x b.x p, lerpQ a.y b.y p, lerpQ a.z b.z p⟩

/-- The clamped interpolation fraction of `animateGhost`:
`Math.min(elapsed / duration, 1)` with `elapsed = now - startTime`. -/
def approachProgress (tStart t : ℚ) : ℚ := min ((t - tStart) / approachDurationMs) 1

/-- The mutable state driven by the `handleStart` callback chain.  `tPhase`
is the reference timestamp of the current timed segment (`startTime`,
`rotationStartTime`, glow entry time, or `rushStartTime` of the source).
`captured` records the `coords` value read when the approach completes: in
the source this read goes through the `handleStart` closure, so it yields
the coords snapshot from the render in which `handleStart` ran (session
start), which the model passes in as the run-wide parameter `cc`. -/
structure SeqState where
  phase : EncounterPhase
  tPhase : ℚ
  ghostPos : Vec3
  ghostVisible : Bool
  showSubtitle : Bool
  movementDisabled : Bool
  ghostGlow : Bool
  showObjective : Bool
  captured : Option Vec3
  deriving DecidableEq, Repr

/-- State when `handleStart` runs (session start, taken as time 0): ghost at
its start position, every flag false, nothing captured. -/
def seqInit : SeqState :=
  ⟨.idle, 0, ghostStartPos, false, false, false, false, false, none⟩

/-- Side effects of the 12-second ghost timer callback: show the ghost and
subtitle, lock movement, and begin the approach with `startTime` equal to
the fire time of the timer (12000 ms after session start). -/
def enterApproaching (s : SeqState) : SeqState :=
  { s with
    phase := .approaching
    tPhase := ghostDelayMs
    ghostVisible := true
    showSubtitle := true
    movementDisabled := true }

/-- One `animateGhost` sample at time `t`: write the interpolated position;
when the fraction reaches 1, snap the position exactly to the origin,
capture the closure value `cc` of `coords` (used for both the facing target
angle and later the rush target), and start the facing rotation at `t`. -/
def approachFrame (cc : Vec3) (s : SeqState) (t : ℚ) : SeqState :=
  let p := approachProgress s.tPhase t
  if p < 1 then { s with ghostPos := lerpVec ghostStartPos originPos p }
  else
    { s with
      ghostPos := originPos
      captured := some cc
      phase := .facing
      tPhase := t }

/-- One `animateRotation` sample at time `t` (the interpolated yaw itself is
a real-valued `atan2` of the captured coords and is not tracked here): when
the 2-second rotation completes, set the glow flag, enter the glow hold at
`t`, and schedule the rush timeout for `t + 1000`. -/
def facingFrame (s : SeqState) (t : ℚ) : SeqState :=
  if (t - s.tPhase) / rotationDurationMs < 1 then s
  else { s with ghostGlow := true, phase := .glowing, tPhase := t }

/-- Side effects of the 1-second glow timeout callback: show the objective
banner, start the kids-laugh cue, and begin the rush with `rushStartTime`
equal to the fire time of the timeout. -/
def enterRushing (s : SeqState) : SeqState :=
  { s with phase := .rushing, tPhase := s.tPhase + glowHoldMs, showObjective := true }

/-- One `rushToPlayer` sample at time `t`: interpolate from the origin to the
closure value `cc` of `coords` (`playerPos` in the source); on completion hide
the ghost and subtitle, clear the glow and objective flags, and re-enable
movement. -/
def rushFrame (cc : Vec3) (s : SeqState) (t : ℚ) : SeqState :=
  let p := min ((t - s.tPhase) / rushDurationMs) 1
  if p < 1 then { s with ghostPos := lerpVec originPos cc p }
  else
    { s with
      ghostPos := lerpVec originPos cc p
      ghostVisible := false
      showSubtitle := false
      ghostGlow := false
      showObjective := false
      movementDisabled := false
      phase := .resolved }

/-- One processed frame of the encounter sequencer at timestamp `t`, with
`cc` the coords snapshot closed over by `handleStart`.  Timer and timeout
callbacks whose scheduled time has arrived run first (their synchronous
progress-0 samples never complete a segment, so only the sample of the frame itself
can advance a segment). -/
def seqStep (cc : Vec3) (s : SeqState) (t : ℚ) : SeqState :=
  match s.phase with
  | .idle => if t < ghostDelayMs then s else approachFrame cc (enterApproaching s) t
  | .approaching => approachFrame cc s t
  | .facing => facingFrame s t
  | .glowing => if t < s.tPhase + glowHoldMs then s else rushFrame cc (enterRushing s) t
  | .rushing => rushFrame cc s t
  | .resolved => s

/-- Run the sequencer over a list of frame timestamps. -/
def seqRun (cc : Vec3) (frames : List ℚ) (s : SeqState) : SeqState :=
  frames.foldl (fun st t => seqStep cc st t) s

/-- The movement-lock and teardown invariant of the sequencer: movement is
locked whenever the encounter is in one of its four active phases, and in
the terminal phase the ghost, subtitle, glow and objective are all cleared
and movement is unlocked again. -/
def lockInv (s : SeqState) : Prop :=
  (s.phase = .approaching ∨ s.phase = .facing ∨ s.phase = .glowing ∨ s.phase = .rushing →
    s.movementDisabled = true) ∧
  (s.phase = .resolved →
    s.ghostVisible = false ∧ s.showSubtitle = false ∧ s.ghostGlow = false ∧
    s.showObjective = false ∧ s.movementDisabled = false)

instance (s : SeqState) : Decidable (lockInv s) := by
  unfold lockInv; infer_instance

/-- `maxPlays` of `playKidsLaugh`. -/
def kidsLaughMaxPlays : ℕ := 3

/-- The retrigger delay `kidsLaughRef.current.duration * 1000` in
milliseconds.  When the duration of the element is not available the source
multiplies `NaN` by 1000 and passes the result to `setTimeout`, whose
timeout coercion turns it into 0, so the unavailable case is a 0 ms delay. -/
def kidsLaughDelayMs (duration : Option ℚ) : ℚ :=
  match duration with
  | some d => d * 1000
  | none => 0

/-- Start times of the successive plays scheduled by `playOnce`: each play
runs, then, while fewer than the allowed number of plays have happened, the
next one is scheduled `delay` after it. -/
def kidsLaughSchedule (delay : ℚ) : ℕ → ℚ → List ℚ
  | 0, _ => []
  | n + 1, t => t :: kidsLaughSchedule delay n (t + delay)

/-- `playKidsLaugh` of the source, as the list of play start times relative
to the call (assuming each `play()` resolves): up to `maxPlays = 3` plays,
each retriggered one believed cue-duration after the previous one. -/
def playKidsLaugh (duration : Option ℚ) : List ℚ :=
  kidsLaughSchedule (kidsLaughDelayMs duration) kidsLaughMaxPlays 0

/-! ## Boundary Enforcer -/

theorem clampAxis_mem (lo hi v : ℚ) (h : lo ≤ hi) :
    lo ≤ clampAxis lo hi v ∧ clampAxis lo hi v ≤ hi := by
  unfold clampAxis
  split_ifs with h1 h2
  · exact ⟨le_refl _, h⟩
  · exact ⟨h, le_refl _⟩
  · exact ⟨le_of_not_lt h1, le_of_not_lt h2⟩

theorem clampAxis_eq_self {lo hi v : ℚ} (h1 : lo ≤ v) (h2 : v ≤ hi) :
    clampAxis lo hi v = v := by
  unfold clampAxis
  rw [if_neg (not_lt.2 h1), if_neg (not_lt.2 h2)]

/-- C4.  Boundary Enforcer correctness: for any two corner points (min and
max taken per axis, so order is irrelevant) and any pre-clamp camera pose,
the clamped pose has x in `[minX, maxX]` and z in `[minZ, maxZ]`, and a pose
already inside the rectangle is returned unchanged. -/
theorem c4_boundary_clamp (c1 c2 : Vec3) (p : CameraPose) :
    boundMinX c1 c2 ≤ (playerBoundaryFrame c1 c2 p).x ∧
    (playerBoundaryFrame c1 c2 p).x ≤ boundMaxX c1 c2 ∧
    boundMinZ c1 c2 ≤ (playerBoundaryFrame c1 c2 p).z ∧
    (playerBoundaryFrame c1 c2 p).z ≤ boundMaxZ c1 c2 ∧
    (insideBoundary c1 c2 p → playerBoundaryFrame c1 c2 p = p) := by
  have hx := clampAxis_mem (boundMinX c1 c2) (boundMaxX c1 c2) p.x min_le_max
  have hz := clampAxis_mem (boundMinZ c1 c2) (boundMaxZ c1 c2) p.z min_le_max
  refine ⟨hx.1, hx.2, hz.1, hz.2, ?_⟩
  rintro ⟨h1, h2, h3, h4⟩
  unfold playerBoundaryFrame
  rw [clampAxis_eq_self h1 h2, clampAxis_eq_self h3 h4]

/-- Witness for C4: the actual session corners with the spawn pose
`(0, 1.6, 5)`, which lies inside the play rectangle and is left unchanged. -/
theorem c4_boundary_clamp_witness :
    insideBoundary boundaryCorner1 boundaryCorner2 ⟨0, 8/5, 5, 0⟩ ∧
    playerBoundaryFrame boundaryCorner1 boundaryCorner2 ⟨0, 8/5, 5, 0⟩ = ⟨0, 8/5, 5, 0⟩ :=
  ⟨by norm_num [insideBoundary, boundMinX, boundMaxX, boundMinZ, boundMaxZ,
      boundaryCorner1, boundaryCorner2, min_def, max_def],
   (c4_boundary_clamp boundaryCorner1 boundaryCorner2 ⟨0, 8/5, 5, 0⟩).2.2.2.2
     (by norm_num [insideBoundary, boundMinX, boundMaxX, boundMinZ, boundMaxZ,
        boundaryCorner1, boundaryCorner2, min_def, max_def])⟩

/-- C10.  Frame property of the Boundary Enforcer: for every input camera
pose the clamp modifies at most the x and z components; the y component and
the facing angle come back unchanged whether or not a clamp occurred. -/
theorem c10_clamp_frame_property (c1 c2 : Vec3) (p : CameraPose) :
    (playerBoundaryFrame c1 c2 p).y = p.y ∧ (playerBoundaryFrame c1 c2 p).yaw = p.yaw :=
  ⟨rfl, rfl⟩

/-! ## Flashlight toggle handler -/

theorem fpcFlashFrame_held_latched (s : FlashState) (h : s.lastFlashlightPress = true) :
    fpcFlashFrame ⟨true, false⟩ s = s := by
  simp [fpcFlashFrame, h]

theorem fpcHeld_latched (n : ℕ) (s : FlashState) (h : s.lastFlashlightPress = true) :
    fpcToggleCount (heldFrames n) s = 0 ∧ fpcFlashRun (heldFrames n) s = s := by
  induction n with
  | zero => simp [heldFrames, fpcToggleCount, fpcFlashRun]
  | succ n ih =>
      have hfr : fpcFlashFrame ⟨true, false⟩ s = s := fpcFlashFrame_held_latched s h
      have hfi : fpcFired ⟨true, false⟩ s = false := by simp [fpcFired, h]
      refine ⟨?_, ?_⟩
      · simpa [heldFrames, List.replicate_succ, fpcToggleCount, hfi, hfr] using ih.1
      · simpa [heldFrames, List.replicate_succ, fpcFlashRun, hfr] using ih.2

theorem fpcHeld_unlatched (n : ℕ) (hn : 1 ≤ n) (s : FlashState)
    (h : s.lastFlashlightPress = false) :
    fpcToggleCount (heldFrames n) s = 1 ∧
    fpcFlashRun (heldFrames n) s = ⟨true, !s.flashlightOn⟩ := by
  obtain ⟨m, rfl⟩ : ∃ m, n = m + 1 := ⟨n - 1, (Nat.succ_pred_eq_of_pos hn).symm⟩
  have hfi : fpcFired ⟨true, false⟩ s = true := by simp [fpcFired, h]
  have hfr : fpcFlashFrame ⟨true, false⟩ s = ⟨true, !s.flashlightOn⟩ := by
    simp [fpcFlashFrame, h]
  have hl := fpcHeld_latched m ⟨true, !s.flashlightOn⟩ rfl
  refine ⟨?_, ?_⟩
  · simpa [heldFrames, List.replicate_succ, fpcToggleCount, hfi, hfr] using hl.1
  · simpa [heldFrames, List.replicate_succ, fpcFlashRun, hfr] using hl.2

theorem fpcReleased_run (n : ℕ) (s : FlashState) :
    fpcToggleCount (releasedFrames n) s = 0 ∧
    (1 ≤ n → fpcFlashRun (releasedFrames n) s = ⟨false, s.flashlightOn⟩) := by
  induction n generalizing s with
  | zero => simp [releasedFrames, fpcToggleCount, fpcFlashRun]
  | succ n ih =>
      have hfi : fpcFired ⟨false, false⟩ s = false := by simp [fpcFired]
      have hfr : fpcFlashFrame ⟨false, false⟩ s = ⟨false, s.flashlightOn⟩ := by
        simp [fpcFlashFrame]
      refine ⟨?_, fun _ => ?_⟩
      · simpa [releasedFrames, List.replicate_succ, fpcToggleCount, hfi, hfr]
          using (ih ⟨false, s.flashlightOn⟩).1
      · rcases Nat.eq_zero_or_pos n with hz | hp
        · subst hz
          simp [releasedFrames, List.replicate_succ, fpcFlashRun, hfr]
        · have := (ih ⟨false, s.flashlightOn⟩).2 hp
          simpa [releasedFrames, List.replicate_succ, fpcFlashRun, hfr] using this

theorem fpcFlashRun_append (xs ys : List FrameKeys) (s : FlashState) :
    fpcFlashRun (xs ++ ys) s = fpcFlashRun ys (fpcFlashRun xs s) := by
  simp [fpcFlashRun, List.foldl_append]

theorem fpcToggleCount_append (xs ys : List FrameKeys) (s : FlashState) :
    fpcToggleCount (xs ++ ys) s = fpcToggleCount xs s + fpcToggleCount ys (fpcFlashRun xs s) := by
  induction xs generalizing s with
  | nil => simp [fpcToggleCount, fpcFlashRun]
  | cons f fs ih =>
      simp [fpcToggleCount, fpcFlashRun, ih, Nat.add_assoc]

/-- C6 counterexample.  A flashlight key press arriving while movement is
locked: from the unlatched, flashlight-off state, the frame handler returns
early, so the toggle does not fire and the flashlight stays off — the claim
says the press would still flip it on. -/
theorem c6_flashlight_lock_counterexample :
    fpcFlashFrame ⟨true, true⟩ ⟨false, false⟩ = ⟨false, false⟩ ∧
    (fpcFlashFrame ⟨true, true⟩ ⟨false, false⟩).flashlightOn = false ∧
    fpcFired ⟨true, true⟩ ⟨false, false⟩ = false := by
  decide

/-- C6 (amended).  While movement is locked the whole per-frame handler is
skipped — the frame is a no-op for the flashlight state and the toggle never
fires; when movement is not locked, a press with the latch clear flips the
flashlight state. -/
theorem c6_flashlight_lock_amended :
    (∀ (b : Bool) (s : FlashState),
      fpcFlashFrame ⟨b, true⟩ s = s ∧ fpcFired ⟨b, true⟩ s = false) ∧
    (∀ s : FlashState, s.lastFlashlightPress = false →
      (fpcFlashFrame ⟨true, false⟩ s).flashlightOn = !s.flashlightOn ∧
      fpcFired ⟨true, false⟩ s = true) := by
  constructor
  · intro b s
    constructor <;> simp [fpcFlashFrame, fpcFired]
  · intro s h
    constructor <;> simp [fpcFlashFrame, fpcFired, h]

/-- Witness for the amended C6 at concrete inputs: an unlocked press flips
the flashlight on, and a locked frame leaves the state untouched. -/
theorem c6_flashlight_lock_amended_witness :
    (fpcFlashFrame ⟨true, false⟩ ⟨false, false⟩).flashlightOn = true ∧
    fpcFlashFrame ⟨true, true⟩ ⟨false, true⟩ = ⟨false, true⟩ :=
  ⟨(c6_flashlight_lock_amended.2 ⟨false, false⟩ rfl).1,
   (c6_flashlight_lock_amended.1 true ⟨false, true⟩).1⟩

/-- C7 counterexample.  A frame sequence in which the flashlight key is held
for two consecutive frames, both with movement locked: the toggle fires zero
times, not the exactly-once the claim asserts for any held sequence. -/
theorem c7_hold_locked_counterexample :
    fpcToggleCount [⟨true, true⟩, ⟨true, true⟩] ⟨false, false⟩ = 0 := by
  decide

/-- C7 (amended).  On frames where movement is not locked the handler is
edge-triggered exactly as claimed: holding the key for `n ≥ 1` consecutive
frames from an unlatched state fires the toggle exactly once, and after at
least one released frame a further held run fires it exactly once more
(two in total). -/
theorem c7_edge_toggle_amended (n m k : ℕ) (hn : 1 ≤ n) (hm : 1 ≤ m) (hk : 1 ≤ k)
    (s : FlashState) (h : s.lastFlashlightPress = false) :
    fpcToggleCount (heldFrames n) s = 1 ∧
    fpcToggleCount (heldFrames n ++ releasedFrames m ++ heldFrames k) s = 2 := by
  have h1 := fpcHeld_unlatched n hn s h
  have h2 := fpcReleased_run m (⟨true, !s.flashlightOn⟩ : FlashState)
  have hrunRel : fpcFlashRun (releasedFrames m) (⟨true, !s.flashlightOn⟩ : FlashState)
      = ⟨false, !s.flashlightOn⟩ := h2.2 hm
  have h3 := fpcHeld_unlatched k hk (⟨false, !s.flashlightOn⟩ : FlashState) rfl
  refine ⟨h1.1, ?_⟩
  rw [fpcToggleCount_append, fpcToggleCount_append, fpcFlashRun_append, h1.1, h1.2,
    h2.1, hrunRel, h3.1]

/-- Witness for the amended C7: hold for 2 frames, release for 1, hold for
3 — one toggle for the first hold, two in total. -/
theorem c7_edge_toggle_amended_witness :
    fpcToggleCount (heldFrames 2) ⟨false, false⟩ = 1 ∧
    fpcToggleCount (heldFrames 2 ++ releasedFrames 1 ++ heldFrames 3) ⟨false, false⟩ = 2 :=
  c7_edge_toggle_amended 2 1 3 (by norm_num) (by norm_num) (by norm_num) ⟨false, false⟩ rfl

/-! ## Peacock gaze trigger -/

theorem peacockHoverFrame_inert (f : GazeFrame) (s : GazeState) (r : ℚ)
    (hf : s.cameraFlipped = true) (hs : s.peacockSwapped = true)
    (hr : s.flipResetAt = some r) (ht : f.t < r) :
    peacockHoverFrame f s = s := by
  have h1 : applyDueReset f.t s = s := by
    simp [applyDueReset, hr, not_le.2 ht]
  unfold peacockHoverFrame
  rw [h1]
  simp [handleCameraFlip, handlePeacockSwap, hf, hs]

theorem peacockHoverRun_inert (ts : List ℚ) (s : GazeState) (r : ℚ)
    (hf : s.cameraFlipped = true) (hs : s.peacockSwapped = true)
    (hr : s.flipResetAt = some r) (ht : ∀ t ∈ ts, t < r) :
    peacockHoverRun (ts.map (fun t => ⟨t, true⟩)) s = s := by
  induction ts with
  | nil => rfl
  | cons t ts ih =>
      have h1 : peacockHoverFrame ⟨t, true⟩ s = s :=
        peacockHoverFrame_inert ⟨t, true⟩ s r hf hs hr (ht t (by simp))
      have h2 : peacockHoverRun ((t :: ts).map (fun u => (⟨u, true⟩ : GazeFrame))) s
          = peacockHoverRun (ts.map (fun u => (⟨u, true⟩ : GazeFrame))) (peacockHoverFrame ⟨t, true⟩ s) := rfl
      rw [h2, h1]
      exact ih (fun u hu => ht u (by simp [hu]))

theorem peacockHoverFrame_first (t : ℚ) :
    peacockHoverFrame ⟨t, true⟩ gazeInit = ⟨true, true, some (t + 3000), 1, 1, 1⟩ := by
  simp [peacockHoverFrame, applyDueReset, gazeInit, handleCameraFlip, handlePeacockSwap]

/-- C5 counterexample.  From the session-start state, a qualifying gaze frame
at t = 0 fires the flip (the flag is set), but the 3-second reset re-arms it:
a second qualifying frame at t = 4000, within the same session, fires the
one-time flip again — flip effect executed twice and a second +180° yaw
applied — so neither the flag state nor the flipped orientation is
permanent.  The swap, by contrast, stays at one execution. -/
theorem c5_flip_rearm_counterexample :
    (peacockHoverRun [⟨0, true⟩] gazeInit).cameraFlipped = true ∧
    (peacockHoverRun [⟨0, true⟩, ⟨4000, true⟩] gazeInit).flipCount = 2 ∧
    (peacockHoverRun [⟨0, true⟩, ⟨4000, true⟩] gazeInit).yawFlips = 2 ∧
    (peacockHoverRun [⟨0, true⟩, ⟨4000, true⟩] gazeInit).swapCount = 1 := by
  norm_num [peacockHoverRun, peacockHoverFrame, applyDueReset, handleCameraFlip,
    handlePeacockSwap, gazeInit, List.foldl]

/-- C5 (amended).  The peacock-to-doll swap is permanent: once
`peacockSwapped` is set, no later frame clears it or re-runs the swap.  The
camera flip is only temporarily guarded: while `cameraFlipped` is set and its
scheduled reset (3 s after firing) has not yet arrived, no frame can fire the
flip again or clear the flag — but once the reset time has been reached, a
qualifying frame fires the flip (a further +180° yaw) again. -/
theorem c5_flip_swap_amended :
    (∀ (f : GazeFrame) (s : GazeState), s.peacockSwapped = true →
      (peacockHoverFrame f s).peacockSwapped = true ∧
      (peacockHoverFrame f s).swapCount = s.swapCount) ∧
    (∀ (f : GazeFrame) (s : GazeState) (r : ℚ), s.cameraFlipped = true →
      s.flipResetAt = some r → f.t < r →
      (peacockHoverFrame f s).cameraFlipped = true ∧
      (peacockHoverFrame f s).flipCount = s.flipCount) ∧
    (∀ (f : GazeFrame) (s : GazeState) (r : ℚ), s.flipResetAt = some r → r ≤ f.t →
      f.qualifies = true →
      (peacockHoverFrame f s).flipCount = s.flipCount + 1) := by
  refine ⟨?_, ?_, ?_⟩
  · rintro ⟨t, q⟩ ⟨cf, ps, fr, fc, sc, yf⟩ h
    simp only at h
    subst h
    cases fr <;>
      simp [peacockHoverFrame, applyDueReset, handleCameraFlip, handlePeacockSwap] <;>
      split_ifs <;> simp_all
  · rintro ⟨t, q⟩ ⟨cf, ps, fr, fc, sc, yf⟩ r hf hr ht
    simp only at hf hr
    subst hf
    subst hr
    have hres : ¬ r ≤ t := not_le.2 ht
    cases q <;>
      simp [peacockHoverFrame, applyDueReset, handleCameraFlip, handlePeacockSwap, hres] <;>
      split_ifs <;> simp_all
  · rintro ⟨t, q⟩ ⟨cf, ps, fr, fc, sc, yf⟩ r hr hle hq
    simp only at hr hq
    subst hr
    subst hq
    cases ps <;>
      simp [peacockHoverFrame, applyDueReset, handleCameraFlip, handlePeacockSwap, hle]

/-- Witness for the amended C5 at concrete inputs: with the reset still
pending the flip is not re-fired and the swap stays set; with the reset due
a qualifying frame fires the flip a second time. -/
theorem c5_flip_swap_amended_witness :
    (peacockHoverFrame ⟨100, true⟩ ⟨true, true, some 3000, 1, 1, 1⟩).flipCount = 1 ∧
    (peacockHoverFrame ⟨100, true⟩ ⟨true, true, some 3000, 1, 1, 1⟩).peacockSwapped = true ∧
    (peacockHoverFrame ⟨3500, true⟩ ⟨false, true, some 3000, 1, 1, 1⟩).flipCount = 2 :=
  ⟨(c5_flip_swap_amended.2.1 ⟨100, true⟩ ⟨true, true, some 3000, 1, 1, 1⟩ 3000 rfl rfl
      (by norm_num)).2,
   (c5_flip_swap_amended.1 ⟨100, true⟩ ⟨true, true, some 3000, 1, 1, 1⟩ rfl).1,
   c5_flip_swap_amended.2.2 ⟨3500, true⟩ ⟨false, true, some 3000, 1, 1, 1⟩ 3000 rfl
     (by norm_num) rfl⟩

/-- C8 counterexample.  A single continuous qualifying approach lasting
longer than 3 seconds (frames every 500 ms, all qualifying, plus a final
frame at 3100 ms): the camera-flip side effect fires twice, because the
3-second reset re-arms the guard mid-approach.  The swap fires once. -/
theorem c8_long_approach_counterexample :
    (peacockHoverRun
        [⟨0, true⟩, ⟨500, true⟩, ⟨1000, true⟩, ⟨1500, true⟩, ⟨2000, true⟩,
         ⟨2500, true⟩, ⟨3100, true⟩] gazeInit).flipCount = 2 ∧
    (peacockHoverRun
        [⟨0, true⟩, ⟨500, true⟩, ⟨1000, true⟩, ⟨1500, true⟩, ⟨2000, true⟩,
         ⟨2500, true⟩, ⟨3100, true⟩] gazeInit).swapCount = 1 := by
  norm_num [peacockHoverRun, peacockHoverFrame, applyDueReset, handleCameraFlip,
    handlePeacockSwap, gazeInit, List.foldl]

/-- C8 (amended).  During a single continuous qualifying approach that lasts
less than 3 seconds (every frame within 3000 ms of the first), the
gaze-confirmed side effects fire exactly once each: one camera flip, one
swap, one +180° yaw — not once per frame.  Longer approaches can re-fire the
flip once the 3-second guard reset elapses (see the counterexample). -/
theorem c8_gaze_debounce_amended (t0 : ℚ) (ts : List ℚ)
    (h : ∀ t ∈ ts, t0 ≤ t ∧ t < t0 + 3000) :
    (peacockHoverRun (⟨t0, true⟩ :: ts.map (fun t => ⟨t, true⟩)) gazeInit).flipCount = 1 ∧
    (peacockHoverRun (⟨t0, true⟩ :: ts.map (fun t => ⟨t, true⟩)) gazeInit).swapCount = 1 ∧
    (peacockHoverRun (⟨t0, true⟩ :: ts.map (fun t => ⟨t, true⟩)) gazeInit).yawFlips = 1 := by
  have hcons : peacockHoverRun (⟨t0, true⟩ :: ts.map (fun t => ⟨t, true⟩)) gazeInit
      = peacockHoverRun (ts.map (fun t => ⟨t, true⟩)) (peacockHoverFrame ⟨t0, true⟩ gazeInit) := rfl
  have hrun : peacockHoverRun (⟨t0, true⟩ :: ts.map (fun t => ⟨t, true⟩)) gazeInit
      = ⟨true, true, some (t0 + 3000), 1, 1, 1⟩ := by
    rw [hcons, peacockHoverFrame_first]
    exact peacockHoverRun_inert ts ⟨true, true, some (t0 + 3000), 1, 1, 1⟩ (t0 + 3000)
      rfl rfl rfl (fun t htm => (h t htm).2)
  rw [hrun]
  exact ⟨rfl, rfl, rfl⟩

/-- Witness for the amended C8: a three-frame qualifying approach at 0, 100
and 2900 ms fires the flip exactly once. -/
theorem c8_gaze_debounce_amended_witness :
    (peacockHoverRun (⟨0, true⟩ :: [(100 : ℚ), 2900].map (fun t => ⟨t, true⟩)) gazeInit).flipCount
      = 1 :=
  (c8_gaze_debounce_amended 0 [100, 2900]
    (by intro t htm; rcases List.mem_cons.1 htm with rfl | htm2
        · constructor <;> norm_num
        · rcases List.mem_cons.1 htm2 with rfl | htm3
          · constructor <;> norm_num
          · simp at htm3)).1

/-! ## Repeatable taunt cue -/

theorem kidsLaughSchedule_length (d : ℚ) (n : ℕ) (t : ℚ) :
    (kidsLaughSchedule d n t).length = n := by
  induction n generalizing t with
  | zero => rfl
  | succ n ih => simp [kidsLaughSchedule, ih]

/-- C9 counterexample.  When the cue duration cannot be determined
(`duration` is `NaN`, multiplied by 1000 and coerced by `setTimeout` to 0),
the computed retrigger delay is 0: all three plays are scheduled at the same
instant — the scheduler retries immediately instead of falling back to a
fixed safe delay. -/
theorem c9_nan_delay_counterexample :
    kidsLaughDelayMs none = 0 ∧ playKidsLaugh none = [0, 0, 0] := by
  norm_num [playKidsLaugh, kidsLaughSchedule, kidsLaughDelayMs, kidsLaughMaxPlays]

/-- C9 (amended).  The cue never plays more than the fixed count of 3 times,
and when the duration is known each retrigger is scheduled exactly one
play-duration after the previous play; but when the duration is unknown the
fallback delay is 0 — an immediate retry, not a fixed safe delay.  The
scheduler still terminates after 3 plays, so it does not hang. -/
theorem c9_kids_laugh_amended (duration : Option ℚ) :
    (playKidsLaugh duration).length = kidsLaughMaxPlays ∧
    (∀ d : ℚ, duration = some d →
      playKidsLaugh duration = [0, d * 1000, d * 1000 * 2]) ∧
    playKidsLaugh none = [0, 0, 0] := by
  refine ⟨kidsLaughSchedule_length _ _ _, ?_, ?_⟩
  · rintro d rfl
    simp [playKidsLaugh, kidsLaughSchedule, kidsLaughDelayMs, kidsLaughMaxPlays]
    ring
  · norm_num [playKidsLaugh, kidsLaughSchedule, kidsLaughDelayMs, kidsLaughMaxPlays]

/-- Witness for the amended C9: a 2-second cue is scheduled at 0, 2000 and
4000 ms, three plays in total. -/
theorem c9_kids_laugh_amended_witness :
    (playKidsLaugh (some 2)).length = kidsLaughMaxPlays ∧
    playKidsLaugh (some 2) = [0, 2 * 1000, 2 * 1000 * 2] :=
  ⟨(c9_kids_laugh_amended (some 2)).1, (c9_kids_laugh_amended (some 2)).2.1 2 rfl⟩

/-! ## Encounter sequencer -/

theorem approachProgress_nonneg {tS t : ℚ} (h : tS ≤ t) : 0 ≤ approachProgress tS t :=
  le_min (div_nonneg (by linarith) (by norm_num [approachDurationMs])) (by norm_num)

theorem approachProgress_le_one (tS t : ℚ) : approachProgress tS t ≤ 1 :=
  min_le_right _ _

theorem approachProgress_lt_one {tS t : ℚ} (h : t - tS < approachDurationMs) :
    approachProgress tS t < 1 :=
  lt_of_le_of_lt (min_le_left _ _)
    ((div_lt_one (by norm_num [approachDurationMs])).2 (by simpa [approachDurationMs] using h))

theorem approachProgress_eq_one {tS t : ℚ} (h : approachDurationMs ≤ t - tS) :
    approachProgress tS t = 1 := by
  unfold approachProgress
  exact min_eq_right ((one_le_div (by norm_num [approachDurationMs])).2 h)

/-- C1.  Encounter timeline: from `Idle` nothing happens before the fixed
12-second mark and the sequencer never returns to `Idle`, so the transition
fires exactly once; the first frame at or after 12000 ms enters
`Approaching` with the approach clock anchored at exactly 12000 ms (the
fire time of the timer, not of the frame); during the approach the ghost position
is the linear interpolation from the fixed start point to the origin with
fraction `min(elapsed/duration, 1)`, which stays within `[0, 1]`; and on any
frame whose elapsed time reaches the duration the position is set exactly to
the origin, independent of how many frames were processed before it. -/
theorem c1_approach_timeline :
    (∀ (cc : Vec3) (s : SeqState) (t : ℚ),
      s.phase = .idle → t < ghostDelayMs → seqStep cc s t = s) ∧
    (∀ (cc : Vec3) (s : SeqState) (t : ℚ),
      (seqStep cc s t).phase = .idle → s.phase = .idle) ∧
    (∀ (cc : Vec3) (s : SeqState) (t : ℚ),
      s.phase = .idle → ghostDelayMs ≤ t → t - ghostDelayMs < approachDurationMs →
      (seqStep cc s t).phase = .approaching ∧
      (seqStep cc s t).tPhase = ghostDelayMs ∧
      (seqStep cc s t).ghostPos =
        lerpVec ghostStartPos originPos (approachProgress ghostDelayMs t)) ∧
    (∀ (cc : Vec3) (s : SeqState) (t : ℚ),
      s.phase = .approaching → s.tPhase ≤ t →
      0 ≤ approachProgress s.tPhase t ∧ approachProgress s.tPhase t ≤ 1 ∧
      (t - s.tPhase < approachDurationMs →
        (seqStep cc s t).ghostPos =
          lerpVec ghostStartPos originPos (approachProgress s.tPhase t)) ∧
      (approachDurationMs ≤ t - s.tPhase →
        (seqStep cc s t).ghostPos = originPos ∧ (seqStep cc s t).phase = .facing)) := by
  refine ⟨?_, ?_, ?_, ?_⟩
  · intro cc s t hp ht
    simp [seqStep, hp, ht]
  · intro cc s t h
    obtain ⟨ph, tp, gp, gv, ss, md, gg, so, cap⟩ := s
    cases ph <;>
      simp only [seqStep, approachFrame, facingFrame, rushFrame, enterApproaching,
        enterRushing] at h ⊢ <;>
      first
        | rfl
        | (split_ifs at h <;> simp_all)
        | simp_all
  · intro cc s t hp hge hlt
    have h1 : ¬ t < ghostDelayMs := not_lt.2 hge
    have h2 : approachProgress ghostDelayMs t < 1 := approachProgress_lt_one hlt
    simp [seqStep, hp, h1, approachFrame, enterApproaching, h2]
  · intro cc s t hp hle
    refine ⟨approachProgress_nonneg hle, approachProgress_le_one _ _, ?_, ?_⟩
    · intro hlt
      have h2 : approachProgress s.tPhase t < 1 := approachProgress_lt_one hlt
      simp [seqStep, hp, approachFrame, h2]
    · intro hge
      have h2 : ¬ approachProgress s.tPhase t < 1 := by
        rw [approachProgress_eq_one hge]; exact lt_irrefl 1
      constructor <;> simp [seqStep, hp, approachFrame, h2]

/-- Witness for C1 at concrete inputs: a frame at 5000 ms leaves the idle
state untouched, and the first frame at 18000 ms is in `Approaching`,
halfway along the interpolation anchored at 12000 ms. -/
theorem c1_approach_timeline_witness :
    seqStep ⟨0, 0, 0⟩ seqInit 5000 = seqInit ∧
    (seqStep ⟨0, 0, 0⟩ seqInit 18000).phase = .approaching ∧
    (seqStep ⟨0, 0, 0⟩ seqInit 18000).ghostPos =
      lerpVec ghostStartPos originPos (approachProgress ghostDelayMs 18000) :=
  ⟨c1_approach_timeline.1 ⟨0, 0, 0⟩ seqInit 5000 rfl (by norm_num [ghostDelayMs]),
   (c1_approach_timeline.2.2.1 ⟨0, 0, 0⟩ seqInit 18000 rfl (by norm_num [ghostDelayMs])
     (by norm_num [ghostDelayMs, approachDurationMs, seqInit])).1,
   (c1_approach_timeline.2.2.1 ⟨0, 0, 0⟩ seqInit 18000 rfl (by norm_num [ghostDelayMs])
     (by norm_num [ghostDelayMs, approachDurationMs, seqInit])).2.2⟩

/-- C2.  Movement-lock lifecycle: the lock-and-teardown invariant holds at
session start and is preserved by every sequencer step — movement stays
locked throughout `Approaching`, `Facing`, `Glowing` and `Rushing`, and in
`Resolved` the ghost, subtitle, glow and objective are all cleared and
movement is unlocked; moreover entering the encounter (the first frame at or
after the 12-second mark) locks movement, and once `Resolved` is reached a
step changes nothing, so there are no further transitions. -/
theorem c2_lock_lifecycle :
    lockInv seqInit ∧
    (∀ (cc : Vec3) (s : SeqState) (t : ℚ), lockInv s → lockInv (seqStep cc s t)) ∧
    (∀ (cc : Vec3) (s : SeqState) (t : ℚ), s.phase = .resolved → seqStep cc s t = s) ∧
    (∀ (cc : Vec3) (s : SeqState) (t : ℚ), s.phase = .idle → ghostDelayMs ≤ t →
      (seqStep cc s t).movementDisabled = true) := by
  refine ⟨?_, ?_, ?_, ?_⟩
  · exact ⟨by simp [seqInit], by simp [seqInit]⟩
  · intro cc s t h
    obtain ⟨hAct, hRes⟩ := h
    obtain ⟨ph, tp, gp, gv, ss, md, gg, so, cap⟩ := s
    cases ph <;>
      simp_all only [lockInv, seqStep, approachFrame, facingFrame, rushFrame,
        enterApproaching, enterRushing] <;>
      first
        | (split_ifs <;> simp_all)
        | simp_all
  · intro cc s t hp
    simp [seqStep, hp]
  · intro cc s t hp hge
    have h1 : ¬ t < ghostDelayMs := not_lt.2 hge
    simp only [seqStep, hp, h1, if_false, approachFrame, enterApproaching]
    split_ifs <;> rfl

/-- Witness for C2 at concrete inputs: the invariant holds after the first
post-timer frame, that frame locks movement, and a step from a resolved
state is the identity. -/
theorem c2_lock_lifecycle_witness :
    lockInv (seqStep ⟨0, 0, 0⟩ seqInit 13000) ∧
    (seqStep ⟨0, 0, 0⟩ seqInit 13000).movementDisabled = true ∧
    seqStep ⟨0, 0, 0⟩
        ⟨.resolved, 29000, originPos, false, false, false, false, false, some ⟨0, 0, 0⟩⟩ 99999
      = ⟨.resolved, 29000, originPos, false, false, false, false, false, some ⟨0, 0, 0⟩⟩ :=
  ⟨c2_lock_lifecycle.2.1 ⟨0, 0, 0⟩ seqInit 13000 c2_lock_lifecycle.1,
   c2_lock_lifecycle.2.2.2 ⟨0, 0, 0⟩ seqInit 13000 rfl (by norm_num [ghostDelayMs, seqInit]),
   c2_lock_lifecycle.2.2.1 ⟨0, 0, 0⟩
     ⟨.resolved, 29000, originPos, false, false, false, false, false, some ⟨0, 0, 0⟩⟩ 99999 rfl⟩

/-- C3 (code bug).  Phase-start pose capture: in the source, every camera
read inside the encounter callbacks goes through the `coords` binding closed
over by `handleStart`, i.e. the coords snapshot of the render in which the
session started — not the live camera position at the phase boundary.
First conjunct: at every step, the value the sequencer captures for the
facing target and the rush target is the closure parameter `cc`, regardless
of the frame at which the capture happens.  The remaining conjuncts evaluate
the failing scenario: the session starts with the camera at `(0, 1.6, 5)`;
the run completes the whole encounter, and both the captured pose and the
final rush position equal that session-start snapshot `(0, 1.6, 5)` — so a
player who has meanwhile walked elsewhere (e.g. to `(4, 1.6, 1)`) sees the
ghost face and rush toward where they stood at session start. -/
theorem c3_stale_capture_bug :
    (∀ (cc : Vec3) (s : SeqState) (t : ℚ),
      (seqStep cc s t).captured = s.captured ∨ (seqStep cc s t).captured = some cc) ∧
    (seqRun ⟨0, 8/5, 5⟩ [12000, 18000, 24000, 25000, 26000, 26500, 28000, 29000]
        seqInit).captured = some ⟨0, 8/5, 5⟩ ∧
    (seqRun ⟨0, 8/5, 5⟩ [12000, 18000, 24000, 25000, 26000, 26500, 28000, 29000]
        seqInit).ghostPos = ⟨0, 8/5, 5⟩ ∧
    (seqRun ⟨0, 8/5, 5⟩ [12000, 18000, 24000, 25000, 26000, 26500, 28000, 29000]
        seqInit).phase = .resolved := by
  refine ⟨?_, ?_, ?_, ?_⟩
  · intro cc s t
    obtain ⟨ph, tp, gp, gv, ss, md, gg, so, cap⟩ := s
    cases ph <;>
      simp only [seqStep, approachFrame, facingFrame, rushFrame, enterApproaching,
        enterRushing] <;>
      first
        | (split_ifs <;> simp)
        | simp
  all_goals
    norm_num [seqRun, seqStep, approachFrame, facingFrame, rushFrame, enterApproaching,
      enterRushing, approachProgress, lerpVec, lerpQ, ghostDelayMs, approachDurationMs,
      rotationDurationMs, glowHoldMs, rushDurationMs, ghostStartPos, originPos, seqInit,
      List.foldl, min_def]

end Spooky
